import Mathlib

/-!
Verification development for the "Crossplatform Subsystem for Windows"
interactive shell (`SimpleTerminal`), revisions 1.0.0 and 1.0.1 of
`Crossplatform Subsystem Terminals/main.py`.

The Python code is shallowly embedded: pure string manipulation is
translated to executable Lean functions, and the stateful parts
(the process working directory, the model filesystem, the session
history) are threaded through an explicit state record `St`.
Interactions with the operating system (chdir permissions, the value
that `os.getcwd()` reports after a successful `os.chdir`, the result of
spawning an external process) are supplied by an environment record
`Sys` of oracles, and observable actions (printing, clearing the
screen, handing a command line to the host shell) are collected in a
list of `Effect`s.

Path strings are modelled with POSIX semantics (the semantics of
`posixpath` in CPython); `str.lower` is modelled on ASCII letters, and
`os.path.expanduser` for a named user that is absent from the user
database returns its argument unchanged, which is the behaviour we
model for every `~user` form.
-/

/-- Python's notion of whitespace for `str.split()`/`str.strip()`
(ASCII part: space, tab, newline, carriage return, vertical tab,
form feed). -/
def pyIsSpace (c : Char) : Bool :=
  c = ' ' || c = '\t' || c = '\n' || c = '\r' || c = '\x0b' || c = '\x0c'

/-- ASCII lower-casing of one character, as `str.lower` acts on ASCII. -/
def pyLowerChar (c : Char) : Char :=
  if 'A' ≤ c ∧ c ≤ 'Z' then Char.ofNat (c.toNat + 32) else c

/-- `s.lower()` (ASCII). -/
def pyLower (s : String) : String :=
  String.mk (s.data.map pyLowerChar)

/-- `s.strip()`: drop leading and trailing whitespace. -/
def pyStrip (s : String) : String :=
  String.mk (((s.data.dropWhile pyIsSpace).reverse.dropWhile pyIsSpace).reverse)

/-- A comparator for the specification's words "trailing whitespace is
trimmed": drop only trailing whitespace (`s.rstrip()`), to be compared
with `pyStrip`, which is what the code actually applies. -/
def rstripOnly (s : String) : String :=
  String.mk ((s.data.reverse.dropWhile pyIsSpace).reverse)

/-- Worker for `str.split()` with an accumulator holding the reversed
characters of the token currently being read. -/
def splitWsAcc (acc : List Char) (l : List Char) : List String :=
  match l with
  | [] => if acc = [] then [] else [String.mk acc.reverse]
  | c :: cs =>
    if pyIsSpace c then
      if acc = [] then splitWsAcc [] cs
      else String.mk acc.reverse :: splitWsAcc [] cs
    else splitWsAcc (c :: acc) cs

/-- `s.split()`: split on runs of whitespace, no empty tokens. -/
def pySplit (s : String) : List String :=
  splitWsAcc [] s.data

/-- `s.split(maxsplit=1)`: leading whitespace skipped, first token,
then the remainder verbatim (after the whitespace run following the
first token). -/
def pySplitMax1 (s : String) : List String :=
  let l := s.data.dropWhile pyIsSpace
  match l with
  | [] => []
  | c :: cs =>
    let tok := c :: cs.takeWhile (fun d => !pyIsSpace d)
    let rest := (cs.dropWhile (fun d => !pyIsSpace d)).dropWhile pyIsSpace
    if rest = [] then [String.mk tok] else [String.mk tok, String.mk rest]

/-- The first whitespace-separated token of a line (empty string if the
line has none); the "verb" of a command line. -/
def firstTok (s : String) : String :=
  String.mk ((s.data.dropWhile pyIsSpace).takeWhile (fun c => !pyIsSpace c))

/-- `s.startswith(pre)`. -/
def pyStartsWith (s pre : String) : Bool :=
  pre.data.isPrefixOf s.data

/-- `s[n:]` (slicing by code points). -/
def strDrop (s : String) (n : Nat) : String :=
  String.mk (s.data.drop n)

/-- Replace every occurrence of the character `c` by `rep`. -/
def replaceChar (c : Char) (rep : List Char) : List Char → List Char
  | [] => []
  | d :: ds => if d = c then rep ++ replaceChar c rep ds else d :: replaceChar c rep ds

/-- `path.replace('~', home)` as used by the 1.0.1 `mkdir` built-in. -/
def tildeReplace (home p : String) : String :=
  String.mk (replaceChar '~' home.data p.data)

/-- `s.split(sep)` for a single separator character, keeping empty
pieces (CPython `str.split('/')`). -/
def splitOnChar (sep : Char) (l : List Char) : List (List Char) :=
  match l with
  | [] => [[]]
  | c :: cs =>
    let r := splitOnChar sep cs
    if c = sep then [] :: r
    else
      match r with
      | h :: t => (c :: h) :: t
      | [] => [[c]]

/-- `posixpath.dirname`: everything up to the last '/', which is then
stripped from the right unless the head is empty or all slashes. -/
def posixDirname (p : String) : String :=
  let head := ((p.data.reverse.dropWhile (fun c => c ≠ '/')).reverse)
  if head = [] ∨ head.all (fun c => c = '/') then String.mk head
  else String.mk ((head.reverse.dropWhile (fun c => c = '/')).reverse)

/-- `posixpath.isabs`. -/
def posixIsAbs (p : String) : Bool :=
  pyStartsWith p "/"

/-- Two-argument `posixpath.join`. -/
def posixJoin (a b : String) : String :=
  if pyStartsWith b "/" then b
  else if a = "" ∨ a.data.getLast? = some '/' then a ++ b
  else a ++ "/" ++ b

/-- `posixpath.normpath`: collapse `.`/`..` segments and repeated
separators, preserving the POSIX one-vs-two leading-slash distinction. -/
def posixNormpath (p : String) : String :=
  if p = "" then "."
  else
    let l := p.data
    let initSlash : Nat :=
      if l.take 1 = ['/'] then
        if l.take 2 = ['/', '/'] ∧ l.take 3 ≠ ['/', '/', '/'] then 2 else 1
      else 0
    let comps := (splitOnChar '/' l).map String.mk
    let newComps := comps.foldl
      (fun acc comp =>
        if comp = "" ∨ comp = "." then acc
        else if comp ≠ ".." ∨ (initSlash = 0 ∧ acc = []) ∨ acc.getLast? = some ".." then
          acc ++ [comp]
        else if acc ≠ [] then acc.dropLast
        else acc) []
    let res := String.mk (List.replicate initSlash '/') ++ String.intercalate "/" newComps
    if res = "" then "." else res

/-- `posixpath.expanduser` restricted to the `~` and `~/...` forms; a
`~user` form is returned unchanged (the model for a user absent from
the user database, which CPython also returns unchanged). -/
def pyExpanduser (home : String) (p : String) : String :=
  match p.data with
  | '~' :: rest =>
    if rest.takeWhile (fun c => c ≠ '/') = [] then
      let uh := String.mk ((home.data.reverse.dropWhile (fun c => c = '/')).reverse)
      let res := uh ++ String.mk (rest.dropWhile (fun c => c ≠ '/'))
      if res = "" then "/" else res
    else p
  | _ => p

/-- Observable actions of one step of the terminal. `runSystem` is an
`os.system` call (host shell, inherited streams); `spawn` is a
`subprocess.Popen(..., shell=True, cwd := ...)` launch attempt with
captured streams. -/
inductive Effect where
  | out (s : String)
  | err (s : String)
  | clear
  | runSystem (cmd : String)
  | spawn (cmd : String) (cwd : String)
deriving Repr, DecidableEq

/-- Session-and-world state threaded through the embedding:
`current_dir` is `self.current_dir`, `procCwd` is the process's actual
working directory (what `os.getcwd()` reports), `history` is
`self.history`, and `dirs`/`files` model the filesystem (canonical
path strings of existing directories and plain files). -/
structure St where
  current_dir : String
  procCwd : String
  history : List String
  dirs : List String
  files : List String
deriving Repr, DecidableEq

/-- Environment oracles: the platform name (`platform.system().lower()`),
the home directory (`str(Path.home())`), whether `os.chdir` on an
existing directory succeeds (permissions), the canonical value
`os.getcwd()` reports after a successful `os.chdir p`, whether
`os.makedirs` is permitted, the captured `(stdout, stderr)` of a
spawned process (`none` models `subprocess.Popen` raising), and the
exception texts used in the error messages. -/
structure Sys where
  system : String
  home : String
  chdirOk : String → Bool
  canon : String → String
  chdirErrText : String → String
  makedirsOk : String → Bool
  makedirsErrText : String → String
  spawnResult : String → String → Option (String × String)
  spawnErrText : String → String

/-- `SimpleTerminal.load_aliases`, revision 1.0.0. -/
def load_aliases_100 (system : String) : List (String × String) :=
  let base := [("ll", "ls -la"), ("la", "ls -a"), ("cls", "clear"),
               ("md", "mkdir"), ("rd", "rmdir"), ("..", "cd .."),
               ("...", "cd ../.."), ("....", "cd ../../..")]
  if system = "windows" then
    base ++ [("ls", "dir"), ("rm", "del"), ("cp", "copy"),
             ("mv", "move"), ("cat", "type"), ("pwd", "cd")]
  else base

/-- `SimpleTerminal.load_aliases`, revision 1.0.1 (adds the
`'mkdir -p'` entry to the Windows overlay). -/
def load_aliases_101 (system : String) : List (String × String) :=
  let base := [("ll", "ls -la"), ("la", "ls -a"), ("cls", "clear"),
               ("md", "mkdir"), ("rd", "rmdir"), ("..", "cd .."),
               ("...", "cd ../.."), ("....", "cd ../../..")]
  if system = "windows" then
    base ++ [("ls", "dir"), ("rm", "del"), ("cp", "copy"),
             ("mv", "move"), ("cat", "type"), ("pwd", "cd"),
             ("mkdir -p", "mkdir")]
  else base

/-- `SimpleTerminal.expand_aliases` (identical in both revisions):
split on whitespace; if the first token is an alias key, replace it by
its expansion and re-join the remaining tokens with single spaces;
otherwise return the line unchanged. -/
def expand_aliases (aliases : List (String × String)) (command : String) : String :=
  match pySplit command with
  | [] => command
  | p0 :: rest =>
    match aliases.lookup p0 with
    | some exp => exp ++ " " ++ String.intercalate " " rest
    | none => command

/-- The path-resolution part of `SimpleTerminal.change_directory`
(identical in both revisions): sentinel handling (`~`, `-`), tilde
expansion, joining a relative path onto the current directory, and
normalisation. `none` is the early `return True` taken when `-` is
used at the filesystem root. -/
def cdResolve (sys : Sys) (st : St) (path0 : String) : Option String :=
  let p1opt :=
    if path0 = "~" then some sys.home
    else if path0 = "-" then
      let previous := posixDirname st.current_dir
      if previous ≠ st.current_dir then some previous else none
    else some path0
  p1opt.map (fun p1 =>
    let p2 := if pyStartsWith p1 "~" then pyExpanduser sys.home p1 else p1
    let p3 := if posixIsAbs p2 then p2 else posixJoin st.current_dir p2
    posixNormpath p3)

/-- `SimpleTerminal.change_directory` (identical in both revisions).
Returns the Boolean result together with the new state and the printed
lines. A directory that exists is entered with `os.chdir` and
`self.current_dir` is then re-read from `os.getcwd()` (modelled by
`sys.canon`); a missing/non-directory target or an OS-level `chdir`
failure is reported and leaves the state unchanged. -/
def change_directory (sys : Sys) (st : St) (path0 : String) :
    Bool × St × List String :=
  match cdResolve sys st path0 with
  | none => (true, st, ["Already at root directory"])
  | some p4 =>
    if st.dirs.contains p4 then
      if sys.chdirOk p4 then
        let newCwd := sys.canon p4
        (true, { st with current_dir := newCwd, procCwd := newCwd }, [])
      else (false, st, ["Error changing directory: " ++ sys.chdirErrText p4])
    else (false, st, ["Directory not found: " ++ p4])

/-- The dirname chain of a path (the path itself, then each successive
`posixpath.dirname`, stopping at a fixpoint or at the empty string):
the set of directories `os.makedirs` ensures exist. Fuel bounds the
iteration by the string length; `posixDirname` shortens its argument
whenever it is not a fixpoint. -/
def dirnameChain : Nat → String → List String
  | 0, _ => []
  | fuel + 1, p =>
    let d := posixDirname p
    if d = p ∨ d = "" then [] else d :: dirnameChain fuel d

/-- The target directory together with all its ancestors, as created by
`os.makedirs(path, exist_ok=True)`. -/
def mdTargets (p : String) : List String :=
  p :: dirnameChain p.data.length p

/-- `SimpleTerminal.mkdir` (revision 1.0.1): replace every `~` by the
home directory, then `os.makedirs(full_path, exist_ok=True)` and report
the created path; any exception is caught and reported. `makedirs` is
modelled as succeeding when the OS permits it and no member of the
dirname chain exists as a plain file; it then adds the target and all
missing ancestors to the directory set. -/
def mkdir_101 (sys : Sys) (st : St) (path : String) : St × List Effect :=
  let full := tildeReplace sys.home path
  if sys.makedirsOk full && (mdTargets full).all (fun q => !st.files.contains q) then
    ({ st with dirs := st.dirs ++ (mdTargets full).filter (fun q => !st.dirs.contains q) },
     [Effect.out ("Directory created: " ++ full)])
  else
    (st, [Effect.out ("Error creating directory: " ++ sys.makedirsErrText full)])

/-- `SimpleTerminal.list_directory` (revision 1.0.0): reconstruct the
platform's listing command from a `dir `/`ls ` prefix slice and hand it
to `os.system`. -/
def list_directory_100 (sys : Sys) (command : String) : List Effect :=
  if sys.system = "windows" then
    [Effect.runSystem ("dir " ++
      (if pyStartsWith (pyLower command) "dir " then strDrop command 3 else ""))]
  else
    [Effect.runSystem ("ls " ++
      (if pyStartsWith (pyLower command) "ls " then strDrop command 3 else ""))]

/-- The external-delegation tail of `execute_command` (identical in
both revisions): attempt `subprocess.Popen(command, shell=True,
cwd=self.current_dir, ...)`; on completion print the stripped captured
stdout to the normal channel when the raw stream is non-empty and the
stripped captured stderr to the error channel when the raw stream is
non-empty; a launch failure is caught and reported. Always returns
`True` (the session continues) and leaves the state unchanged. -/
def runExternal (sys : Sys) (st : St) (command : String) :
    Bool × St × List Effect :=
  match sys.spawnResult command st.current_dir with
  | some (o, e) =>
    (true, st,
      Effect.spawn command st.current_dir ::
        ((if o ≠ "" then [Effect.out (pyStrip o)] else []) ++
         (if e ≠ "" then [Effect.err (pyStrip e)] else [])))
  | none =>
    (true, st,
      [Effect.spawn command st.current_dir,
       Effect.out ("Error executing command: " ++ sys.spawnErrText command)])

/-- The host-shell command strings an effect list hands to the native
command interpreter (through `os.system` or `subprocess.Popen` with
`shell=True`). -/
def shellCmds : List Effect → List String
  | [] => []
  | Effect.runSystem c :: r => c :: shellCmds r
  | Effect.spawn c _ :: r => c :: shellCmds r
  | _ :: r => shellCmds r

/-- The platform's native listing verb, as chosen by revision 1.0.0's
`list_directory` (`dir` on Windows, `ls` elsewhere). -/
def nativeListVerb (system : String) : String :=
  if system = "windows" then "dir" else "ls"

/-- The static usage text printed by `SimpleTerminal.show_help`
(revision 1.0.0). -/
def helpText100 : String :=
  "\n        Simple Cross-Platform Terminal\n        ------------------------------\n        \n        Basic Commands:\n          cd [directory]  - Change directory (use ~ for home, .. for parent)\n          ls / dir       - List directory contents\n          pwd            - Show current directory\n          clear / cls    - Clear screen\n          history        - Show command history\n          exit / quit    - Exit terminal\n        \n        File Operations:\n          cat [file]     - Show file content (type on Windows)\n          cp [src] [dst] - Copy files (copy on Windows)\n          mv [src] [dst] - Move files (move on Windows)\n          rm [file]      - Remove files (del on Windows)\n          mkdir [dir]    - Create directory\n          rmdir [dir]    - Remove directory\n        \n        System Info:\n          python --version  - Python version\n          pip list         - Installed packages\n          ver / systeminfo - System info (Windows)\n          uname -a         - System info (Unix)\n        \n        Aliases:\n          ll  - ls -la / dir with details\n          la  - ls -a  / show hidden files\n          ..  - cd ..\n          ... - cd ../..\n        "

/-- `SimpleTerminal.execute_command`, revision 1.0.0. Returns the
Boolean continuation flag, the new state, and the emitted effects. -/
def execute_command_100 (sys : Sys) (st : St) (command0 : String) :
    Bool × St × List Effect :=
  if pyStrip command0 = "" then (true, st, [])
  else
    let command := expand_aliases (load_aliases_100 sys.system) command0
    let cmdLower := pyLower command
    if pyStartsWith cmdLower "cd " then
      let path := pyStrip (strDrop command 3)
      let (ok, st', outs) := change_directory sys st path
      (ok, st', outs.map Effect.out)
    else if cmdLower = "cd" then
      let (ok, st', outs) := change_directory sys st sys.home
      (ok, st', outs.map Effect.out)
    else if cmdLower = "exit" ∨ cmdLower = "quit" then
      (false, st, [Effect.out "Goodbye!"])
    else if cmdLower = "clear" ∨ cmdLower = "cls" then
      (true, st, [Effect.clear])
    else if cmdLower = "pwd" then
      (true, st, [Effect.out st.current_dir])
    else if cmdLower = "ls" ∨ cmdLower = "dir" then
      (true, st, list_directory_100 sys command)
    else if cmdLower = "history" then
      (true, st,
        Effect.out "Command History:" ::
          (List.enumFrom 1 (st.history.drop (st.history.length - 10))).map
            (fun pr => Effect.out ("  " ++ toString pr.1 ++ ": " ++ pr.2)))
    else if cmdLower = "help" then
      (true, st, [Effect.out helpText100])
    else
      runExternal sys st command

/-- `SimpleTerminal.execute_command`, revision 1.0.1. The `history` and
`help` built-ins of 1.0.0 are absent; a `mkdir` built-in selected by a
lowercase-prefix check is added before the `ls`/`dir` branch, and the
bare `ls`/`dir` branch hands the whole expanded line to `os.system`. -/
def execute_command_101 (sys : Sys) (st : St) (command0 : String) :
    Bool × St × List Effect :=
  if pyStrip command0 = "" then (true, st, [])
  else
    let command := expand_aliases (load_aliases_101 sys.system) command0
    let cmdLower := pyLower command
    if pyStartsWith cmdLower "cd " then
      let path := pyStrip (strDrop command 3)
      let (ok, st', outs) := change_directory sys st path
      (ok, st', outs.map Effect.out)
    else if cmdLower = "cd" then
      let (ok, st', outs) := change_directory sys st sys.home
      (ok, st', outs.map Effect.out)
    else if cmdLower = "exit" ∨ cmdLower = "quit" then
      (false, st, [Effect.out "Goodbye!"])
    else if cmdLower = "clear" ∨ cmdLower = "cls" then
      (true, st, [Effect.clear])
    else if cmdLower = "pwd" then
      (true, st, [Effect.out st.current_dir])
    else if pyStartsWith cmdLower "mkdir" then
      match pySplitMax1 command with
      | _ :: pathArg :: _ =>
        let (st', effs) := mkdir_101 sys st pathArg
        (true, st', effs)
      | _ => (true, st, [Effect.out "mkdir: missing path"])
    else if cmdLower = "ls" ∨ cmdLower = "dir" then
      (true, st, [Effect.runSystem command])
    else
      runExternal sys st command

/-- One unit of behaviour of the input collaborator for one loop
iteration: a returned line, a `KeyboardInterrupt`, an `EOFError`, or a
generic `Exception` (caught by the loop's last handler). -/
inductive InEvent where
  | line (s : String)
  | interrupt
  | eof
  | genErr (msg : String)
deriving Repr, DecidableEq

/-- The `while True` body of `SimpleTerminal.run` (the banner printed
before the loop is not part of the model), shared by both revisions and
parameterised by the revision's `execute_command` and its interrupt
reminder text. Consumes a list of input events; the final component is
`true` exactly when the loop exited (`Terminated`), and `false` when
the events ran out with the loop still prompting (`Running`). Each
returned line is stripped; a non-empty stripped line is appended to the
history and executed, and a `False` from `execute_command` breaks the
loop. -/
def runLoopWith (exec : St → String → Bool × St × List Effect) (intMsg : String) :
    List InEvent → St → St × List Effect × Bool
  | [], st => (st, [], false)
  | ev :: rest, st =>
    match ev with
    | InEvent.eof => (st, [Effect.out "\nGoodbye!"], true)
    | InEvent.interrupt =>
      let (st', effs, term) := runLoopWith exec intMsg rest st
      (st', Effect.out intMsg :: effs, term)
    | InEvent.genErr m =>
      let (st', effs, term) := runLoopWith exec intMsg rest st
      (st', Effect.out ("Error: " ++ m) :: effs, term)
    | InEvent.line s =>
      let command := pyStrip s
      if command = "" then runLoopWith exec intMsg rest st
      else
        let st1 := { st with history := st.history ++ [command] }
        let (cont, st2, effs1) := exec st1 command
        if cont then
          let (st', effs, term) := runLoopWith exec intMsg rest st2
          (st', effs1 ++ effs, term)
        else (st2, effs1, true)

/-- The main loop of `SimpleTerminal.run`, revision 1.0.0. -/
def run_loop_100 (sys : Sys) : List InEvent → St → St × List Effect × Bool :=
  runLoopWith (execute_command_100 sys) "\nUse 'exit' to quit the terminal"

/-- The main loop of `SimpleTerminal.run`, revision 1.0.1. -/
def run_loop_101 (sys : Sys) : List InEvent → St → St × List Effect × Bool :=
  runLoopWith (execute_command_101 sys) "\nUse 'exit' to quit"

/-- A concrete non-Windows environment used by the closed evaluation
theorems: home `/home/u`, every `chdir`/`makedirs` permitted,
`os.getcwd()` reporting exactly the entered path, and a spawn oracle
that fails to launch for the command `boom`, returns stdout `" a"` and
stderr `"b \n"` for the command `foo`, and empty streams otherwise. -/
def sampleSys : Sys where
  system := "linux"
  home := "/home/u"
  chdirOk := fun _ => true
  canon := fun p => p
  chdirErrText := fun _ => "PermissionError"
  makedirsOk := fun _ => true
  makedirsErrText := fun _ => "FileExistsError"
  spawnResult := fun c _ =>
    if c = "boom" then none
    else if c = "foo" then some (" a", "b \n")
    else some ("", "")
  spawnErrText := fun _ => "FileNotFoundError"

/-- A concrete session state: current directory `/work` (matching the
process working directory), empty history, directories `/` and `/work`,
no plain files. -/
def sampleSt : St where
  current_dir := "/work"
  procCwd := "/work"
  history := []
  dirs := ["/", "/work"]
  files := []

/-- A session state sitting at the filesystem root. -/
def rootSt : St where
  current_dir := "/"
  procCwd := "/"
  history := []
  dirs := ["/"]
  files := []

lemma strData_append (s t : String) : (s ++ t).data = s.data ++ t.data := by
  cases s; cases t; rfl

lemma string_mk_data (s : String) : String.mk s.data = s := by
  cases s; rfl

lemma string_ne_of_headChar {s t : String} (h : s.data.head? ≠ t.data.head?) : s ≠ t :=
  fun he => h (by rw [he])

lemma pyLowerChar_space {c : Char} (h : pyIsSpace c = true) :
    pyIsSpace (pyLowerChar c) = true := by
  simp only [pyIsSpace, Bool.or_eq_true, decide_eq_true_eq] at h
  rcases h with ((((h | h) | h) | h) | h) | h <;> subst h <;> decide

lemma splitWsAcc_nil_all_space (l : List Char) (h : ∀ c ∈ l, pyIsSpace c = true) :
    splitWsAcc [] l = [] := by
  induction l with
  | nil => rfl
  | cons c cs ih =>
    simp only [splitWsAcc, h c (by simp), if_true, if_pos rfl]
    exact ih (fun d hd => h d (by simp [hd]))

lemma pyStrip_empty_all_space {s : String} (h : pyStrip s = "") :
    ∀ c ∈ s.data, pyIsSpace c = true := by
  have hdata : (((s.data.dropWhile pyIsSpace).reverse.dropWhile pyIsSpace).reverse) = [] := by
    simpa [pyStrip] using congrArg String.data h
  rw [List.reverse_eq_nil_iff] at hdata
  have hall : ∀ c ∈ (s.data.dropWhile pyIsSpace).reverse, pyIsSpace c = true :=
    List.dropWhile_eq_nil_iff.mp hdata
  intro c hc
  have hsplit := List.takeWhile_append_dropWhile pyIsSpace s.data
  rw [← hsplit] at hc
  rcases List.mem_append.mp hc with h1 | h2
  · exact List.mem_takeWhile_imp h1
  · exact hall c (List.mem_reverse.mpr h2)

lemma splitWsAcc_token_space :
    ∀ (tl acc rest : List Char), tl ≠ [] → (∀ c ∈ tl, pyIsSpace c = false) →
      splitWsAcc acc (tl ++ ' ' :: rest) =
        String.mk (acc.reverse ++ tl) :: splitWsAcc [] rest := by
  intro tl
  induction tl with
  | nil => intro acc rest h _; exact absurd rfl h
  | cons c tl' ih =>
    intro acc rest _ hns
    have hc : pyIsSpace c = false := hns c (by simp)
    simp only [List.cons_append, splitWsAcc, hc, Bool.false_eq_true, if_false]
    cases htl' : tl' with
    | nil =>
      subst htl'
      simp only [List.nil_append, splitWsAcc]
      have : pyIsSpace ' ' = true := by decide
      simp [this]
    | cons d tl'' =>
      rw [← htl']
      have htlne : tl' ≠ [] := by rw [htl']; simp
      simp only [List.append_eq]
      rw [ih (c :: acc) rest htlne (fun d hd => hns d (by simp [hd]))]
      rw [List.reverse_cons, List.append_assoc, List.singleton_append]

lemma pySplit_token_space (t a : String) (h1 : t.data ≠ [])
    (h2 : ∀ c ∈ t.data, pyIsSpace c = false) :
    pySplit (t ++ " " ++ a) = t :: pySplit a := by
  have hdata : (t ++ " " ++ a).data = t.data ++ ' ' :: a.data := by
    rw [strData_append, strData_append]
    simp [List.append_assoc]
  rw [pySplit, hdata, splitWsAcc_token_space t.data [] a.data h1 h2]
  simp [string_mk_data, pySplit]

lemma expand_aliases_self (al : List (String × String)) (cmd : String)
    (h : ∀ w rest, pySplit cmd = w :: rest → al.lookup w = none) :
    expand_aliases al cmd = cmd := by
  unfold expand_aliases
  cases hs : pySplit cmd with
  | nil => rfl
  | cons w rest => simp [h w rest hs]

lemma shellCmds_append (a b : List Effect) :
    shellCmds (a ++ b) = shellCmds a ++ shellCmds b := by
  induction a with
  | nil => rfl
  | cons e r ih => cases e <;> simp [shellCmds, ih]

lemma shellCmds_runExternal (sys : Sys) (st : St) (c : String) :
    shellCmds (runExternal sys st c).2.2 = [c] := by
  unfold runExternal
  cases hs : sys.spawnResult c st.current_dir with
  | none => rfl
  | some oe =>
    obtain ⟨o, e⟩ := oe
    by_cases ho : o = "" <;> by_cases he : e = "" <;>
      simp [ho, he, shellCmds, shellCmds_append]

lemma lookup_mkdir_101 (system : String) :
    (load_aliases_101 system).lookup "mkdir" = none := by
  unfold load_aliases_101
  split <;> decide

lemma lookup_history_100 (system : String) :
    (load_aliases_100 system).lookup "history" = none := by
  unfold load_aliases_100
  split <;> decide

lemma pyStartsWith_shape {s pre : String} (h : pyStartsWith s pre = true) :
    ∃ t, s.data = pre.data ++ t := by
  obtain ⟨t, ht⟩ := List.isPrefixOf_iff_prefix.mp h
  exact ⟨t, ht.symm⟩

lemma head_of_takeWhile_cons {p : Char → Bool} {X : List Char} {c : Char} {cs : List Char}
    (h : X.takeWhile p = c :: cs) : X.head? = some c := by
  cases X with
  | nil => simp [List.takeWhile] at h
  | cons a Y =>
    rw [List.takeWhile_cons] at h
    split at h
    · injection h with h1 _
      rw [h1]
      rfl
    · exact absurd h (by simp)

lemma strip_mid_decomp (m : List Char) :
    m = (m.reverse.dropWhile pyIsSpace).reverse ++ (m.reverse.takeWhile pyIsSpace).reverse := by
  conv_lhs => rw [← List.reverse_reverse m]
  rw [← List.reverse_append, List.takeWhile_append_dropWhile]

lemma pyStrip_decomp (s : String) :
    ∃ pre suf, s.data = pre ++ (pyStrip s).data ++ suf ∧
      pre.all pyIsSpace = true ∧ suf.all pyIsSpace = true ∧
      (pyStrip s).data.head?.all (fun c => !pyIsSpace c) = true ∧
      (pyStrip s).data.getLast?.all (fun c => !pyIsSpace c) = true := by
  have hcore : (pyStrip s).data =
      ((s.data.dropWhile pyIsSpace).reverse.dropWhile pyIsSpace).reverse := rfl
  refine ⟨s.data.takeWhile pyIsSpace,
    ((s.data.dropWhile pyIsSpace).reverse.takeWhile pyIsSpace).reverse, ?_, ?_, ?_, ?_, ?_⟩
  · rw [hcore, List.append_assoc, ← strip_mid_decomp (s.data.dropWhile pyIsSpace),
      List.takeWhile_append_dropWhile]
  · simp only [List.all_eq_true]
    exact fun x hx => List.mem_takeWhile_imp hx
  · simp only [List.all_eq_true]
    exact fun x hx => List.mem_takeWhile_imp (List.mem_reverse.mp hx)
  · rw [hcore, List.head?_reverse]
    obtain ⟨preL, hpreL⟩ :=
      @List.dropWhile_suffix Char ((s.data.dropWhile pyIsSpace).reverse) pyIsSpace
    cases hx : ((s.data.dropWhile pyIsSpace).reverse.dropWhile pyIsSpace).getLast? with
    | none => simp
    | some c =>
      have hlast : ((s.data.dropWhile pyIsSpace).reverse).getLast? = some c := by
        rw [← hpreL, List.getLast?_append, hx]
        rfl
      rw [List.getLast?_reverse] at hlast
      have hnot := List.head?_dropWhile_not pyIsSpace s.data
      rw [hlast] at hnot
      simp [hnot]
  · rw [hcore, List.getLast?_reverse]
    have hnot := List.head?_dropWhile_not pyIsSpace ((s.data.dropWhile pyIsSpace).reverse)
    cases hx : ((s.data.dropWhile pyIsSpace).reverse.dropWhile pyIsSpace).head? with
    | none => simp
    | some c =>
      rw [hx] at hnot
      simp [hnot]

lemma cons_ne_cons_head {a b : Char} {l1 l2 : List Char} (h : a ≠ b) :
    a :: l1 ≠ b :: l2 := by
  intro he
  injection he with h1 _
  exact h h1

lemma expand_all_space (al : List (String × String)) (command0 : String)
    (h0 : pyStrip command0 = "") :
    expand_aliases al command0 = command0 := by
  have hsplit : pySplit command0 = [] :=
    splitWsAcc_nil_all_space command0.data (pyStrip_empty_all_space h0)
  unfold expand_aliases
  rw [hsplit]

lemma strip_nonempty_of_expand_head (al : List (String × String)) (command0 : String)
    (c : Char) (t : List Char)
    (ht : (pyLower (expand_aliases al command0)).data = c :: t)
    (hc : pyIsSpace c = false) :
    ¬(pyStrip command0 = "") := by
  intro h0
  have hexp := expand_all_space al command0 h0
  rw [hexp] at ht
  have hall := pyStrip_empty_all_space h0
  have hmem : c ∈ (pyLower command0).data := by rw [ht]; simp
  have : ∃ d ∈ command0.data, pyLowerChar d = c := by
    simpa [pyLower] using hmem
  obtain ⟨d, hd, hdc⟩ := this
  have := pyLowerChar_space (hall d hd)
  rw [hdc, hc] at this
  exact absurd this (by decide)

/-- Shared dispatch fact for revision 1.0.1: when the lowercased
alias-expanded line starts with `mkdir`, `execute_command` takes the
`mkdir` built-in branch (and no earlier branch). -/
lemma exec101_mkdir_dispatch (sys : Sys) (st : St) (command0 : String)
    (hm : pyStartsWith (pyLower (expand_aliases (load_aliases_101 sys.system) command0))
            "mkdir" = true) :
    execute_command_101 sys st command0 =
      match pySplitMax1 (expand_aliases (load_aliases_101 sys.system) command0) with
      | _ :: pathArg :: _ =>
        (true, (mkdir_101 sys st pathArg).1, (mkdir_101 sys st pathArg).2)
      | _ => (true, st, [Effect.out "mkdir: missing path"]) := by
  obtain ⟨t, ht0⟩ := pyStartsWith_shape hm
  have ht : (pyLower (expand_aliases (load_aliases_101 sys.system) command0)).data =
      'm' :: 'k' :: 'd' :: 'i' :: 'r' :: t := by
    rw [ht0]; rfl
  have hstrip : ¬(pyStrip command0 = "") :=
    strip_nonempty_of_expand_head _ _ 'm' _ ht (by decide)
  have hcd : pyStartsWith (pyLower (expand_aliases (load_aliases_101 sys.system) command0))
      "cd " = false := by
    refine Bool.eq_false_iff.mpr ?_
    intro hval
    obtain ⟨t', ht'⟩ := pyStartsWith_shape hval
    rw [ht] at ht'
    exact absurd ht' (by exact cons_ne_cons_head (by decide))
  have hne1 : pyLower (expand_aliases (load_aliases_101 sys.system) command0) ≠ "cd" :=
    string_ne_of_headChar (by rw [ht, List.head?_cons]; decide)
  have hne2 : pyLower (expand_aliases (load_aliases_101 sys.system) command0) ≠ "exit" :=
    string_ne_of_headChar (by rw [ht, List.head?_cons]; decide)
  have hne3 : pyLower (expand_aliases (load_aliases_101 sys.system) command0) ≠ "quit" :=
    string_ne_of_headChar (by rw [ht, List.head?_cons]; decide)
  have hne4 : pyLower (expand_aliases (load_aliases_101 sys.system) command0) ≠ "clear" :=
    string_ne_of_headChar (by rw [ht, List.head?_cons]; decide)
  have hne5 : pyLower (expand_aliases (load_aliases_101 sys.system) command0) ≠ "cls" :=
    string_ne_of_headChar (by rw [ht, List.head?_cons]; decide)
  have hne6 : pyLower (expand_aliases (load_aliases_101 sys.system) command0) ≠ "pwd" :=
    string_ne_of_headChar (by rw [ht, List.head?_cons]; decide)
  unfold execute_command_101
  rw [if_neg hstrip]
  simp only [hcd, hne1, hne2, hne3, hne4, hne5, hne6, hm, Bool.false_eq_true, if_false,
    if_true, or_self, false_or, or_false, if_neg, ite_false, ite_true]

/-- C2: after every navigation attempt via `change_directory`, the
session's `current_dir` equals the process working directory: on a
successful move both are set to the value re-read from the OS
(`sys.canon` of the resolved path), and on failure (target missing,
not a directory, or an OS-level `chdir` error) the whole state is
unchanged. -/
theorem claim_C2_cd_invariant (sys : Sys) (st : St) (path0 : String)
    (h : st.procCwd = st.current_dir) :
    ((change_directory sys st path0).2.1.procCwd =
       (change_directory sys st path0).2.1.current_dir) ∧
    ((change_directory sys st path0).1 = false → (change_directory sys st path0).2.1 = st) ∧
    ((change_directory sys st path0).1 = true →
      (change_directory sys st path0).2.1 = st ∨
      ∃ p4, cdResolve sys st path0 = some p4 ∧
        (change_directory sys st path0).2.1.current_dir = sys.canon p4 ∧
        (change_directory sys st path0).2.1.procCwd = sys.canon p4) := by
  unfold change_directory
  cases hres : cdResolve sys st path0 with
  | none => exact ⟨h, fun _ => rfl, fun _ => Or.inl rfl⟩
  | some p4 =>
    dsimp only
    by_cases hd : st.dirs.contains p4 = true
    · by_cases hc : sys.chdirOk p4 = true
      · rw [if_pos hd, if_pos hc]
        exact ⟨rfl, fun hfalse => by simp at hfalse, fun _ => Or.inr ⟨p4, rfl, rfl, rfl⟩⟩
      · rw [if_pos hd, if_neg hc]
        exact ⟨h, fun _ => rfl, fun htrue => by simp at htrue⟩
    · rw [if_neg hd]
      exact ⟨h, fun _ => rfl, fun htrue => by simp at htrue⟩

/-- C2 witness: a concrete successful and invariant-preserving
instantiation. -/
theorem claim_C2_witness :
    sampleSt.procCwd = sampleSt.current_dir ∧
    ((change_directory sampleSys sampleSt "/nope").2.1.procCwd =
       (change_directory sampleSys sampleSt "/nope").2.1.current_dir) ∧
    ((change_directory sampleSys sampleSt "/nope").1 = false →
       (change_directory sampleSys sampleSt "/nope").2.1 = sampleSt) :=
  ⟨rfl,
   (claim_C2_cd_invariant sampleSys sampleSt "/nope" rfl).1,
   (claim_C2_cd_invariant sampleSys sampleSt "/nope" rfl).2.1⟩

/-- C8: when the current directory is the filesystem root (its parent
equals itself), `cd -` succeeds, prints the informational notice, and
leaves the state unchanged; iterating the navigation any number of
times never changes the directory. -/
theorem claim_C8_root_previous (sys : Sys) (st : St)
    (hroot : posixDirname st.current_dir = st.current_dir) :
    change_directory sys st "-" = (true, st, ["Already at root directory"]) ∧
    ∀ n : Nat, (fun s => (change_directory sys s "-").2.1)^[n] st = st := by
  have hres : cdResolve sys st "-" = none := by
    unfold cdResolve
    rw [hroot]
    simp
  have heq : change_directory sys st "-" = (true, st, ["Already at root directory"]) := by
    unfold change_directory
    rw [hres]
  refine ⟨heq, ?_⟩
  intro n
  induction n with
  | zero => rfl
  | succ k ih =>
    rw [Function.iterate_succ_apply', ih]
    show (change_directory sys st "-").2.1 = st
    rw [heq]

/-- C8 witness: concrete instantiation at the root directory. -/
theorem claim_C8_witness :
    posixDirname rootSt.current_dir = rootSt.current_dir ∧
    change_directory sampleSys rootSt "-" =
      (true, rootSt, ["Already at root directory"]) :=
  ⟨by decide, (claim_C8_root_previous sampleSys rootSt (by decide)).1⟩

/-- C4: the `history` built-in (revision 1.0.0) prints, after the
banner line, exactly the entries of `self.history[-10:]` — at most the
10 most recently entered lines, a suffix of the history in original
(oldest-first) order — numbered starting at 1. -/
theorem claim_C4_history_display (sys : Sys) (st : St) :
    execute_command_100 sys st "history" =
      (true, st,
        Effect.out "Command History:" ::
          (List.enumFrom 1 (st.history.drop (st.history.length - 10))).map
            (fun pr => Effect.out ("  " ++ toString pr.1 ++ ": " ++ pr.2))) ∧
    (st.history.drop (st.history.length - 10)).length ≤ 10 ∧
    (st.history.drop (st.history.length - 10)) <:+ st.history := by
  have hexp : expand_aliases (load_aliases_100 sys.system) "history" = "history" := by
    apply expand_aliases_self
    intro w rest hsr
    rw [show pySplit "history" = ["history"] from by decide] at hsr
    injection hsr with h1 _
    rw [← h1]
    exact lookup_history_100 sys.system
  refine ⟨?_, ?_, List.drop_suffix _ _⟩
  · unfold execute_command_100
    rw [if_neg (by decide : ¬(pyStrip "history" = ""))]
    dsimp only
    rw [hexp]
    simp only [show pyLower "history" = "history" from by decide,
      show pyStartsWith "history" "cd " = false from by decide,
      show ¬(("history" : String) = "cd") from by decide,
      show ¬(("history" : String) = "exit") from by decide,
      show ¬(("history" : String) = "quit") from by decide,
      show ¬(("history" : String) = "clear") from by decide,
      show ¬(("history" : String) = "cls") from by decide,
      show ¬(("history" : String) = "pwd") from by decide,
      show ¬(("history" : String) = "ls") from by decide,
      show ¬(("history" : String) = "dir") from by decide,
      Bool.false_eq_true, if_false, or_self, or_false, false_or, ite_true, ite_false]
  · rw [List.length_drop]
    omega

/-- C9: alias expansion re-joins with single spaces: whenever the first
whitespace token of a line is an alias key, the result is the expansion
followed by one space and the remaining tokens joined by single
spaces; in particular a bare `cls` expands to `clear ` (with a trailing
space) and whitespace runs between arguments are collapsed. -/
theorem claim_C9_single_space_rejoin :
    (∀ (al : List (String × String)) (cmd t e : String) (args : List String),
      pySplit cmd = t :: args → al.lookup t = some e →
      expand_aliases al cmd = e ++ " " ++ String.intercalate " " args) ∧
    expand_aliases (load_aliases_100 "linux") "cls" = "clear " ∧
    expand_aliases (load_aliases_100 "linux") "cls  a   b" = "clear a b" := by
  refine ⟨?_, by decide, by decide⟩
  intro al cmd t e args hs hl
  unfold expand_aliases
  rw [hs]
  dsimp only
  rw [hl]

/-- C9 witness: instantiation of the universally quantified part at a
concrete line. -/
theorem claim_C9_witness :
    expand_aliases (load_aliases_100 "linux") "md  sub dir" =
      "mkdir" ++ " " ++ String.intercalate " " ["sub", "dir"] :=
  claim_C9_single_space_rejoin.1 (load_aliases_100 "linux") "md  sub dir" "md" "mkdir"
    ["sub", "dir"] (by decide) (by decide)

/-- C3 counterexample: `cls` is an alias key mapped to `clear`, but for
the trailing-argument string `a = "x  y"` (which contains a run of two
spaces) the expansion of `"cls" + " " + a` is `"clear x y"`, not
`aliases["cls"] + " " + a = "clear x  y"`: the claimed equation fails
for trailing-argument strings containing whitespace runs. -/
theorem claim_C3_counterexample :
    (load_aliases_100 "linux").lookup "cls" = some "clear" ∧
    expand_aliases (load_aliases_100 "linux") ("cls" ++ " " ++ "x  y") ≠
      "clear" ++ " " ++ "x  y" := by decide

/-- C3 (amended): for an alias key `t` that is non-empty and contains
no whitespace, and a trailing-argument string `a` that is normalised
(equal to the single-space join of its whitespace tokens),
`expand(t + " " + a) = aliases[t] + " " + a`; and any line whose first
whitespace token is not a key is returned unchanged. -/
theorem claim_C3_amended_expand :
    (∀ (al : List (String × String)) (t e a : String),
      t.data ≠ [] → (∀ c ∈ t.data, pyIsSpace c = false) →
      al.lookup t = some e → String.intercalate " " (pySplit a) = a →
      expand_aliases al (t ++ " " ++ a) = e ++ " " ++ a) ∧
    (∀ (al : List (String × String)) (line : String),
      (∀ w rest, pySplit line = w :: rest → al.lookup w = none) →
      expand_aliases al line = line) := by
  constructor
  · intro al t e a h1 h2 hl ha
    unfold expand_aliases
    rw [pySplit_token_space t a h1 h2]
    dsimp only
    rw [hl, ha]
  · intro al line h
    exact expand_aliases_self al line h

/-- C3 witness: the amended equation at a concrete key and a normalised
argument string, and the unchanged case at a non-key line. -/
theorem claim_C3_witness :
    expand_aliases (load_aliases_100 "linux") ("cls" ++ " " ++ "x y") =
      "clear" ++ " " ++ "x y" ∧
    expand_aliases (load_aliases_100 "linux") "history" = "history" :=
  ⟨claim_C3_amended_expand.1 (load_aliases_100 "linux") "cls" "clear" "x y"
      (by decide) (by decide) (by decide) (by decide),
   claim_C3_amended_expand.2 (load_aliases_100 "linux") "history" (fun w rest h => by
      rw [show pySplit "history" = ["history"] from by decide] at h
      injection h with h1 _
      rw [← h1]
      decide)⟩

/-- C10: in revision 1.0.1, every line whose lowercased alias-expanded
form starts with the five characters `mkdir` — including longer verbs
such as `mkdirs x` — is handled by the `mkdir` built-in, which splits
off everything after the first token as the path (usage error when
there is no second token), and is never delegated to the host shell. -/
theorem claim_C10_mkdir_prefix_dispatch (sys : Sys) (st : St) (command0 : String)
    (hm : pyStartsWith (pyLower (expand_aliases (load_aliases_101 sys.system) command0))
            "mkdir" = true) :
    execute_command_101 sys st command0 =
      (match pySplitMax1 (expand_aliases (load_aliases_101 sys.system) command0) with
       | _ :: pathArg :: _ =>
         (true, (mkdir_101 sys st pathArg).1, (mkdir_101 sys st pathArg).2)
       | _ => (true, st, [Effect.out "mkdir: missing path"])) ∧
    shellCmds (execute_command_101 sys st command0).2.2 = [] := by
  have hdispatch := exec101_mkdir_dispatch sys st command0 hm
  refine ⟨hdispatch, ?_⟩
  rw [hdispatch]
  cases hsp : pySplitMax1 (expand_aliases (load_aliases_101 sys.system) command0) with
  | nil => rfl
  | cons w rest =>
    cases rest with
    | nil => rfl
    | cons pathArg r =>
      show shellCmds (mkdir_101 sys st pathArg).2 = []
      unfold mkdir_101
      dsimp only
      split <;> rfl

/-- C10 witness: the line `mkdirs x` (verb `mkdirs`, a strict superword
of `mkdir`) is handled by the `mkdir` built-in with path `x`. -/
theorem claim_C10_witness :
    pyStartsWith
      (pyLower (expand_aliases (load_aliases_101 sampleSys.system) "mkdirs x")) "mkdir" = true ∧
    execute_command_101 sampleSys sampleSt "mkdirs x" =
      (match pySplitMax1 (expand_aliases (load_aliases_101 sampleSys.system) "mkdirs x") with
       | _ :: pathArg :: _ =>
         (true, (mkdir_101 sampleSys sampleSt pathArg).1,
          (mkdir_101 sampleSys sampleSt pathArg).2)
       | _ => (true, sampleSt, [Effect.out "mkdir: missing path"])) :=
  ⟨by decide, (claim_C10_mkdir_prefix_dispatch sampleSys sampleSt "mkdirs x" (by decide)).1⟩

/-- C5 (revision 1.0.1): `mkdir <path>` resolves the path by replacing
`~` with the home directory, creates the directory at the resolved path
together with all missing ancestors (when the OS permits the creation
and no component exists as a plain file), reports the created path, and
continues; bare `mkdir` reports the usage error `mkdir: missing path`
and also continues. -/
theorem claim_C5_mkdir_builtin (sys : Sys) (st : St) (p : String)
    (hne : p.data.head?.any (fun c => !pyIsSpace c) = true)
    (hok : sys.makedirsOk (tildeReplace sys.home p) = true)
    (hfiles : (mdTargets (tildeReplace sys.home p)).all
        (fun q => !st.files.contains q) = true) :
    (execute_command_101 sys st ("mkdir " ++ p) =
      (true,
       { st with dirs := st.dirs ++ (mdTargets (tildeReplace sys.home p)).filter (fun q => !st.dirs.contains q) },
       [Effect.out ("Directory created: " ++ tildeReplace sys.home p)]) ∧
     ∀ q, q ∈ mdTargets (tildeReplace sys.home p) →
       (st.dirs ++ (mdTargets (tildeReplace sys.home p)).filter
           (fun q => !st.dirs.contains q)).contains q = true) ∧
    execute_command_101 sys st "mkdir" = (true, st, [Effect.out "mkdir: missing path"]) := by
  obtain ⟨c, cr, hp, hc⟩ : ∃ c cr, p.data = c :: cr ∧ pyIsSpace c = false := by
    cases hp : p.data with
    | nil => rw [hp] at hne; simp [Option.any] at hne
    | cons c cr =>
      rw [hp] at hne
      exact ⟨c, cr, rfl, by simpa using hne⟩
  have hsplit_cmd : pySplit ("mkdir " ++ p) = "mkdir" :: pySplit p := by
    have heq1 : ("mkdir " ++ p) = ("mkdir" ++ " ") ++ p := by
      rw [show ("mkdir" ++ " " : String) = "mkdir " from by decide]
    rw [heq1]
    exact pySplit_token_space "mkdir" p (by decide) (by decide)
  have hexp : expand_aliases (load_aliases_101 sys.system) ("mkdir " ++ p) =
      "mkdir " ++ p := by
    apply expand_aliases_self
    intro w rest h
    rw [hsplit_cmd] at h
    injection h with h1 _
    rw [← h1]
    exact lookup_mkdir_101 sys.system
  have hld : (pyLower ("mkdir " ++ p)).data =
      'm' :: 'k' :: 'd' :: 'i' :: 'r' :: ' ' :: (p.data.map pyLowerChar) := by
    show (("mkdir " ++ p).data.map pyLowerChar) = _
    rw [strData_append, List.map_append,
      show List.map pyLowerChar ("mkdir " : String).data = ("mkdir " : String).data
        from by decide]
    rfl
  have hm : pyStartsWith
      (pyLower (expand_aliases (load_aliases_101 sys.system) ("mkdir " ++ p)))
      "mkdir" = true := by
    rw [hexp]
    unfold pyStartsWith
    apply List.isPrefixOf_iff_prefix.mpr
    exact ⟨' ' :: p.data.map pyLowerChar, by rw [hld]; rfl⟩
  have fm : pyIsSpace 'm' = false := by decide
  have fk : pyIsSpace 'k' = false := by decide
  have fd : pyIsSpace 'd' = false := by decide
  have fi : pyIsSpace 'i' = false := by decide
  have fr : pyIsSpace 'r' = false := by decide
  have fsp : pyIsSpace ' ' = true := by decide
  have hsp : pySplitMax1 ("mkdir " ++ p) = ["mkdir", p] := by
    simp only [pySplitMax1, strData_append,
      show ("mkdir " : String).data = ['m', 'k', 'd', 'i', 'r', ' '] from rfl, hp,
      List.cons_append, List.nil_append, List.dropWhile_cons, List.takeWhile_cons,
      fm, fk, fd, fi, fr, fsp, hc, Bool.not_false, Bool.not_true, Bool.false_eq_true,
      Bool.true_eq_false, if_true, if_false, ite_true, ite_false]
    rw [if_neg (by simp : ¬(c :: cr = []))]
    rw [show String.mk ['m', 'k', 'd', 'i', 'r'] = "mkdir" from by decide, ← hp,
      string_mk_data]
  refine ⟨⟨?_, ?_⟩, ?_⟩
  · rw [exec101_mkdir_dispatch sys st ("mkdir " ++ p) hm, hexp, hsp]
    dsimp only
    unfold mkdir_101
    dsimp only
    rw [if_pos (by rw [hok, hfiles]; rfl)]
  · intro q hq
    simp only [List.contains, List.elem_eq_mem, decide_eq_true_eq, List.mem_append,
      List.mem_filter]
    by_cases hqd : q ∈ st.dirs
    · exact Or.inl hqd
    · refine Or.inr ⟨hq, ?_⟩
      simp [List.contains, hqd]
  · have hm2 : pyStartsWith
        (pyLower (expand_aliases (load_aliases_101 sys.system) "mkdir")) "mkdir" = true := by
      rw [expand_aliases_self _ _ (fun w rest h => by
        rw [show pySplit "mkdir" = ["mkdir"] from by decide] at h
        injection h with h1 _
        rw [← h1]
        exact lookup_mkdir_101 sys.system)]
      decide
    have hexp2 : expand_aliases (load_aliases_101 sys.system) "mkdir" = "mkdir" :=
      expand_aliases_self _ _ (fun w rest h => by
        rw [show pySplit "mkdir" = ["mkdir"] from by decide] at h
        injection h with h1 _
        rw [← h1]
        exact lookup_mkdir_101 sys.system)
    rw [exec101_mkdir_dispatch sys st "mkdir" hm2, hexp2,
      show pySplitMax1 "mkdir" = ["mkdir"] from by decide]

/-- C5 witness: creating `a/b` from the sample state makes both `a/b`
and its ancestor `a` exist, and the bare call reports the usage
error. -/
theorem claim_C5_witness :
    (execute_command_101 sampleSys sampleSt ("mkdir " ++ "a/b") =
      (true,
       { sampleSt with dirs := sampleSt.dirs ++ (mdTargets (tildeReplace sampleSys.home "a/b")).filter (fun q => !sampleSt.dirs.contains q) },
       [Effect.out ("Directory created: " ++ tildeReplace sampleSys.home "a/b")]) ∧
     ∀ q, q ∈ mdTargets (tildeReplace sampleSys.home "a/b") →
       (sampleSt.dirs ++ (mdTargets (tildeReplace sampleSys.home "a/b")).filter
           (fun q => !sampleSt.dirs.contains q)).contains q = true) ∧
    execute_command_101 sampleSys sampleSt "mkdir" =
      (true, sampleSt, [Effect.out "mkdir: missing path"]) :=
  claim_C5_mkdir_builtin sampleSys sampleSt "a/b" (by decide) (by decide) (by decide)

/-- C6 counterexample: on the non-Windows sample platform the line
`dir -x` has verb `dir` after alias expansion, but the only command
handed to the host shell is `dir -x` itself — whose verb is not `ls`,
the platform's native listing command — so the claim that the native
listing command is invoked with the remaining arguments fails. -/
theorem claim_C6_counterexample :
    firstTok (pyLower (expand_aliases (load_aliases_101 sampleSys.system) "dir -x")) = "dir" ∧
    nativeListVerb sampleSys.system = "ls" ∧
    shellCmds (execute_command_101 sampleSys sampleSt "dir -x").2.2 = ["dir -x"] ∧
    firstTok "dir -x" ≠ nativeListVerb sampleSys.system := by decide

/-- C6 (amended, revision 1.0.1): every line whose lowercased
alias-expanded verb is `ls` or `dir` results in exactly one host-shell
invocation, whose command string is the expanded line itself — the verb
followed verbatim by the remaining arguments (through the bare
`ls`/`dir` `os.system` branch or through the external delegator); the
verb is translated to the platform's native listing command only where
alias expansion does so (`ls` to `dir` on Windows). -/
theorem claim_C6_amended_listing (sys : Sys) (st : St) (command0 : String)
    (hv : firstTok (pyLower (expand_aliases (load_aliases_101 sys.system) command0)) = "ls" ∨
          firstTok (pyLower (expand_aliases (load_aliases_101 sys.system) command0)) = "dir") :
    shellCmds (execute_command_101 sys st command0).2.2 =
      [expand_aliases (load_aliases_101 sys.system) command0] := by
  have hheadc : ∃ ch,
      ((pyLower (expand_aliases (load_aliases_101 sys.system) command0)).data.dropWhile
        pyIsSpace).head? = some ch ∧ (ch = 'l' ∨ ch = 'd') := by
    rcases hv with h | h
    · have hdata := congrArg String.data h
      have htw : ((pyLower (expand_aliases (load_aliases_101 sys.system)
          command0)).data.dropWhile pyIsSpace).takeWhile (fun c => !pyIsSpace c) =
            'l' :: ['s'] := hdata
      exact ⟨'l', head_of_takeWhile_cons htw, Or.inl rfl⟩
    · have hdata := congrArg String.data h
      have htw : ((pyLower (expand_aliases (load_aliases_101 sys.system)
          command0)).data.dropWhile pyIsSpace).takeWhile (fun c => !pyIsSpace c) =
            'd' :: ['i', 'r'] := hdata
      exact ⟨'d', head_of_takeWhile_cons htw, Or.inr rfl⟩
  obtain ⟨ch, hch, hor⟩ := hheadc
  have hstrip : ¬(pyStrip command0 = "") := by
    intro h0
    have hexp := expand_all_space (load_aliases_101 sys.system) command0 h0
    rw [hexp] at hch
    have hall := pyStrip_empty_all_space h0
    have hallLow : ∀ c ∈ (pyLower command0).data, pyIsSpace c = true := by
      intro c hc
      obtain ⟨d, hd, hdc⟩ : ∃ d ∈ command0.data, pyLowerChar d = c := by
        simpa [pyLower] using hc
      rw [← hdc]
      exact pyLowerChar_space (hall d hd)
    rw [List.dropWhile_eq_nil_iff.mpr hallLow] at hch
    cases hch
  have hcdF : pyStartsWith (pyLower (expand_aliases (load_aliases_101 sys.system) command0))
      "cd " = false := by
    refine Bool.eq_false_iff.mpr fun hval => ?_
    obtain ⟨t, ht⟩ := pyStartsWith_shape hval
    have ht' : (pyLower (expand_aliases (load_aliases_101 sys.system) command0)).data =
        'c' :: ('d' :: ' ' :: t) := by rw [ht]; rfl
    rw [ht', List.dropWhile_cons_of_neg (by decide), List.head?_cons] at hch
    injection hch with h1
    rcases hor with h | h <;> rw [h] at h1 <;> exact absurd h1 (by decide)
  have hmkF : pyStartsWith (pyLower (expand_aliases (load_aliases_101 sys.system) command0))
      "mkdir" = false := by
    refine Bool.eq_false_iff.mpr fun hval => ?_
    obtain ⟨t, ht⟩ := pyStartsWith_shape hval
    have ht' : (pyLower (expand_aliases (load_aliases_101 sys.system) command0)).data =
        'm' :: ('k' :: 'd' :: 'i' :: 'r' :: t) := by rw [ht]; rfl
    rw [ht', List.dropWhile_cons_of_neg (by decide), List.head?_cons] at hch
    injection hch with h1
    rcases hor with h | h <;> rw [h] at h1 <;> exact absurd h1 (by decide)
  have hlit : ∀ (L : String) (c0 : Char),
      (L.data.dropWhile pyIsSpace).head? = some c0 → c0 ≠ 'l' → c0 ≠ 'd' →
      pyLower (expand_aliases (load_aliases_101 sys.system) command0) ≠ L := by
    intro L c0 hL hnl hnd h
    rw [h, hL] at hch
    injection hch with h1
    rcases hor with hh | hh <;> rw [hh] at h1
    · exact hnl h1
    · exact hnd h1
  have hne1 := hlit "cd" 'c' (by decide) (by decide) (by decide)
  have hne2 := hlit "exit" 'e' (by decide) (by decide) (by decide)
  have hne3 := hlit "quit" 'q' (by decide) (by decide) (by decide)
  have hne4 := hlit "clear" 'c' (by decide) (by decide) (by decide)
  have hne5 := hlit "cls" 'c' (by decide) (by decide) (by decide)
  have hne6 := hlit "pwd" 'p' (by decide) (by decide) (by decide)
  unfold execute_command_101
  rw [if_neg hstrip]
  dsimp only
  simp only [hcdF, hmkF, hne1, hne2, hne3, hne4, hne5, hne6, Bool.false_eq_true, if_false,
    or_self, false_or, or_false, ite_false]
  by_cases hls : pyLower (expand_aliases (load_aliases_101 sys.system) command0) = "ls" ∨
      pyLower (expand_aliases (load_aliases_101 sys.system) command0) = "dir"
  · rw [if_pos hls]
    rfl
  · rw [if_neg hls]
    exact shellCmds_runExternal sys st (expand_aliases (load_aliases_101 sys.system) command0)

/-- C6 witness: the amended statement at the concrete line `ls -la`. -/
theorem claim_C6_witness :
    shellCmds (execute_command_101 sampleSys sampleSt "ls -la").2.2 =
      [expand_aliases (load_aliases_101 sampleSys.system) "ls -la"] :=
  claim_C6_amended_listing sampleSys sampleSt "ls -la" (by decide)

/-- C7 counterexample: for the delegated command `foo` the spawn oracle
returns raw stdout `" a"` (leading whitespace) and stderr `"b \n"`; the
code prints `a` — Python `strip()` removes the leading space as well —
whereas trimming only trailing whitespace would print `" a"`; the
claimed description of the printed value fails. -/
theorem claim_C7_counterexample :
    sampleSys.spawnResult "foo" sampleSt.current_dir = some (" a", "b \n") ∧
    (execute_command_101 sampleSys sampleSt "foo").2.2 =
      [Effect.spawn "foo" "/work", Effect.out "a", Effect.err "b"] ∧
    rstripOnly " a" = " a" ∧
    pyStrip " a" = "a" ∧
    ("a" : String) ≠ " a" := by decide

/-- C7 (amended): the external delegator never terminates the session
and never changes the state; when the spawn succeeds it prints, after
the spawn effect, the captured stdout stripped of leading AND trailing
whitespace on the normal channel when the raw stream is non-empty, and
the stripped captured stderr on the error channel when the raw stream
is non-empty; a launch failure is reported as an execution error; and
`pyStrip` removes exactly a whitespace prefix and a whitespace suffix,
leaving no whitespace at either end. -/
theorem claim_C7_amended_delegation (sys : Sys) (st : St) (command : String) :
    ((runExternal sys st command).1 = true ∧ (runExternal sys st command).2.1 = st) ∧
    (∀ o e, sys.spawnResult command st.current_dir = some (o, e) →
      (runExternal sys st command).2.2 =
        Effect.spawn command st.current_dir ::
          ((if o ≠ "" then [Effect.out (pyStrip o)] else []) ++
           (if e ≠ "" then [Effect.err (pyStrip e)] else []))) ∧
    (sys.spawnResult command st.current_dir = none →
      (runExternal sys st command).2.2 =
        [Effect.spawn command st.current_dir,
         Effect.out ("Error executing command: " ++ sys.spawnErrText command)]) ∧
    (∀ s : String, ∃ pre suf, s.data = pre ++ (pyStrip s).data ++ suf ∧
      pre.all pyIsSpace = true ∧ suf.all pyIsSpace = true ∧
      (pyStrip s).data.head?.all (fun c => !pyIsSpace c) = true ∧
      (pyStrip s).data.getLast?.all (fun c => !pyIsSpace c) = true) := by
  refine ⟨?_, ?_, ?_, fun s => pyStrip_decomp s⟩
  · unfold runExternal
    cases hs : sys.spawnResult command st.current_dir with
    | none => exact ⟨rfl, rfl⟩
    | some oe => obtain ⟨o, e⟩ := oe; exact ⟨rfl, rfl⟩
  · intro o e hs
    unfold runExternal
    rw [hs]
  · intro hs
    unfold runExternal
    rw [hs]

/-- C7 witness: the amended statement at the concrete command `foo`
(stdout `" a"`, stderr `"b \n"`) and at the failing launch `boom`. -/
theorem claim_C7_witness :
    ((runExternal sampleSys sampleSt "foo").2.2 =
      Effect.spawn "foo" sampleSt.current_dir ::
        ((if (" a" : String) ≠ "" then [Effect.out (pyStrip " a")] else []) ++
         (if ("b \n" : String) ≠ "" then [Effect.err (pyStrip "b \n")] else []))) ∧
    ((runExternal sampleSys sampleSt "boom").2.2 =
      [Effect.spawn "boom" sampleSt.current_dir,
       Effect.out ("Error executing command: " ++ sampleSys.spawnErrText "boom")]) :=
  ⟨(claim_C7_amended_delegation sampleSys sampleSt "foo").2.1 " a" "b \n" (by decide),
   (claim_C7_amended_delegation sampleSys sampleSt "boom").2.2.1 (by decide)⟩

/-- C1 (divergence witness): in the sample state, the line `cd /nope`
(a navigation to a non-existent directory) makes `change_directory`
return `False`; `run`'s `if not self.execute_command(command): break`
treats that `False` exactly like the exit signal, so the loop breaks:
the error is printed but the session TERMINATES (final flag `true`) and
the following `pwd` line is never processed — in both revisions. -/
theorem claim_C1_failed_cd_terminates :
    change_directory sampleSys sampleSt "/nope" =
      (false, sampleSt, ["Directory not found: /nope"]) ∧
    run_loop_100 sampleSys [InEvent.line "cd /nope", InEvent.line "pwd"] sampleSt =
      ({ sampleSt with history := ["cd /nope"] },
       [Effect.out "Directory not found: /nope"], true) ∧
    run_loop_101 sampleSys [InEvent.line "cd /nope", InEvent.line "pwd"] sampleSt =
      ({ sampleSt with history := ["cd /nope"] },
       [Effect.out "Directory not found: /nope"], true) ∧
    run_loop_100 sampleSys [InEvent.line "exit"] sampleSt =
      ({ sampleSt with history := ["exit"] }, [Effect.out "Goodbye!"], true) ∧
    run_loop_100 sampleSys [InEvent.eof] sampleSt =
      (sampleSt, [Effect.out "\nGoodbye!"], true) := by decide
